import Mathlib

/-!
# Verification of the ListenBuddy Recommendation engine

Shallow embedding of `src/concepts/Recommendation/RecommendationConcept.ts`.

Modelling conventions:
* The MongoDB collection `Recommendation.recommendations` is a `List RecommendationDoc`;
  `find` is `List.filter`, `insertMany` is list append, `updateMany` is `List.map`,
  `deleteMany` is `List.filter`.
* JavaScript numbers are rationals (`ℚ`) for scores/confidences and integers (`Int`)
  for timestamps and the requested `amount`.
* `Date.now()` / `new Date()` within one call is a single parameter `now : Int`;
  `freshID()` (external util) is a parameter `fresh : Nat → String` indexed by how many
  records were already created in the call.
* The Gemini LLM call plus JSON parsing (`executeLLM` / `_parseJSONFromLLMResponse`,
  which wrap the external Gemini client and `JSON.parse`) are abstracted into one
  oracle parameter `llm : Option (Except String (Option (List LLMRec)))`:
  `none` = no LLM configured, `some (.error e)` = the completion call throws `e`,
  `some (.ok none)` = the response is not parseable JSON,
  `some (.ok (some recs))` = the parsed JSON array.
  All control flow around that call is translated from the source.
* JavaScript truthiness of optional strings (`x ? … : …`, `a || b`) is modelled
  explicitly: `none` and `some ""` are falsy.
-/

namespace ListenBuddy

/-- A document of the `Recommendation.recommendations` collection
(interface `RecommendationDoc` in the source). -/
structure RecommendationDoc where
  _id : String
  userId : String
  item1 : String
  item2 : String
  itemName : String
  reasoning : String
  confidence : ℚ
  feedback : Option Bool
  createdAt : Int
deriving Repr, DecidableEq

/-- Interface `MusicBrainzTag` in the source. -/
structure MusicBrainzTag where
  name : String
  count : Int
deriving Repr, DecidableEq

/-- Interface `MusicBrainzEntity` in the source (all fields optional).
`genres`/`tags`/`type`/`disambiguation`/`description` feed only the LLM prompt text. -/
structure MusicBrainzEntity where
  id : Option String := none
  name : Option String := none
  title : Option String := none
  type : Option String := none
  disambiguation : Option String := none
  description : Option String := none
  genres : Option (List MusicBrainzTag) := none
  tags : Option (List MusicBrainzTag) := none
deriving Repr, DecidableEq

/-- One element of the parsed LLM JSON array (interface `LLMRecommendationOutput`). -/
structure LLMRec where
  name : String
  reasoning : String
  confidence : ℚ
deriving Repr, DecidableEq

/-- Element of the `similarArtists` input list of `generate`. -/
structure SimilarArtist where
  mbid : String
  name : String
  score : ℚ
  sharedGenres : List String
deriving Repr, DecidableEq

/-- Element of the `similarRecordings` input list of `generate`. -/
structure SimilarRecording where
  mbid : String
  title : String
  artist : Option String := none
  score : ℚ
  sharedGenres : List String
deriving Repr, DecidableEq

/-- Element of the `similarReleaseGroups` input list of `generate`. -/
structure SimilarReleaseGroup where
  mbid : String
  title : String
  artist : Option String := none
  score : ℚ
  sharedGenres : List String
deriving Repr, DecidableEq

/-- Element of `allSimilarItems` in `generateFallbackRecommendations`
(`{name, type, score}`). -/
structure SimItem where
  name : String
  type : String
  score : ℚ
deriving Repr, DecidableEq

/-- Entry of the list returned by `getFeedbackHistory`. -/
structure FeedbackEntry where
  recommendationId : String
  item : String
  feedback : Bool
  reasoning : String
  sourceItem : String
deriving Repr, DecidableEq

/-- JavaScript truthiness of a possibly-undefined string:
`undefined` and the empty string are falsy. -/
def optTruthy : Option String → Bool
  | none => false
  | some s => s ≠ ""

/-- JavaScript `a || b` on possibly-undefined strings. -/
def orElse (a b : Option String) : Option String :=
  if optTruthy a then a else b

/-- One character of `name.toLowerCase().replace(/[^a-z0-9]/g, "-")`: the map applied to a character
of the already lowercased name. -/
def slugChar (c : Char) : Char :=
  if (Char.ofNat 97 ≤ c ∧ c ≤ Char.ofNat 122) ∨ (Char.ofNat 48 ≤ c ∧ c ≤ Char.ofNat 57) then
    c
  else
    Char.ofNat 45

/-- Model of `name.toLowerCase().replace(/[^a-z0-9]/g, "-")`. -/
def slugify (s : String) : String :=
  String.map slugChar s.toLower

/-- The synthesized recommended-item id:
`rec:${userId}:${slug}:${Date.now()}` (source, lines 304-306 and 427-429). -/
def mkItemId (userId name : String) (now : Int) : String :=
  "rec:" ++ userId ++ ":" ++ slugify name ++ ":" ++ toString now

/-- Model of `getFeedbackHistory` (source, lines 709-756): all records of `userId` whose
feedback is set, optionally restricted to one source item, projected to
`{recommendationId, item, feedback, reasoning, sourceItem}` where `item` is
`doc.itemName || String(doc.item2)`. -/
def getFeedbackHistory (userId : String) (sourceItem : Option String)
    (store : List RecommendationDoc) : Except String (List FeedbackEntry) :=
  if userId = "" then
    .error "User ID not specified."
  else
    .ok (((store.filter (fun r =>
        decide (r.userId = userId ∧ r.feedback ≠ none ∧
          (optTruthy sourceItem = true → r.item1 = sourceItem.getD "")))).map
      (fun r =>
        { recommendationId := r._id
          item := if r.itemName ≠ "" then r.itemName else r.item2
          feedback := r.feedback.getD false
          reasoning := r.reasoning
          sourceItem := r.item1 })))

/-- The `userFeedbackHistory` value computed in `generate` (line 161:
`feedbackHistoryResult.history || []`). -/
def feedbackHistoryOf (userId sourceMBID : String)
    (store : List RecommendationDoc) : List FeedbackEntry :=
  match getFeedbackHistory userId (some sourceMBID) store with
  | .ok h => h
  | .error _ => []

/-- The `existingFeedbackNames` set of `generate` (lines 163-171): lowercased names of this
user's records for this source item that carry feedback, dropping empty names. -/
def existingFeedbackNamesOf (userId sourceMBID : String)
    (store : List RecommendationDoc) : List String :=
  ((store.filter (fun r =>
      decide (r.userId = userId ∧ r.item1 = sourceMBID ∧ r.feedback ≠ none))).map
    (fun r => r.itemName.toLower)).filter (fun n => 0 < n.length)

/-- The `existingRecommendedNames` set of `generate` (lines 174-182): lowercased names of all
this user's records for this source item, dropping empty names. -/
def existingRecommendedNamesOf (userId sourceMBID : String)
    (store : List RecommendationDoc) : List String :=
  ((store.filter (fun r =>
      decide (r.userId = userId ∧ r.item1 = sourceMBID))).map
    (fun r => r.itemName.toLower)).filter (fun n => 0 < n.length)

/-- Model of `sourceItemMetadata?.id || sourceItem` (source, line 153). -/
def resolveSourceMBID (meta : MusicBrainzEntity) (sourceItem : String) : String :=
  if optTruthy meta.id then meta.id.getD "" else sourceItem

/-- Model of `sourceItemMetadata?.name || sourceItemMetadata?.title`: the source item's display
name used in the LLM path's source-exclusion check (source, line 312). -/
def srcDisplayName (meta : MusicBrainzEntity) : Option String :=
  orElse meta.name meta.title

/-- The merged candidate list of the fallback path (source, lines 386-412):
artists, then recordings, then release groups, each tagged with its origin type. -/
def mergeSimilar (artists : List SimilarArtist) (recordings : List SimilarRecording)
    (releaseGroups : List SimilarReleaseGroup) : List SimItem :=
  artists.map (fun a => { name := a.name, type := "artist", score := a.score }) ++
    recordings.map (fun r => { name := r.title, type := "recording", score := r.score }) ++
    releaseGroups.map (fun g => { name := g.title, type := "release-group", score := g.score })

/-- The ordering relation realised by `sort((a, b) => b.score - a.score)`:
a stable sort keeps `a` before `b` exactly when the comparator is ≤ 0,
i.e. when `b.score ≤ a.score`. -/
def scoreGE (a b : SimItem) : Prop := b.score ≤ a.score

instance : DecidableRel scoreGE := fun a b => inferInstanceAs (Decidable (b.score ≤ a.score))

instance : IsTotal SimItem scoreGE := ⟨fun a b => le_total b.score a.score⟩

instance : IsTrans SimItem scoreGE := ⟨fun _ _ _ h h2 => le_trans h2 h⟩

/-- Model of `allSimilarItems.sort((a, b) => b.score - a.score).slice(0, amount * 2)`
(source, lines 423-425). -/
def fallbackCandidatePool (amount : Int) (artists : List SimilarArtist)
    (recordings : List SimilarRecording) (releaseGroups : List SimilarReleaseGroup) :
    List SimItem :=
  (List.insertionSort scoreGE (mergeSimilar artists recordings releaseGroups)).take
    (amount * 2).toNat

/-- The `forEach` body of the fallback path (source, lines 426-454): greedily accept a
candidate while fewer than `amount` were taken, its synthesized id and lowercased name
are new in this batch, and its lowercased name carries no feedback. `uids` and `seen`
model the `uniqueRecommendedItems` and `seenNames` sets. -/
def fallbackLoop (userId srcMBID : String) (amount : Int) (now : Int) (fresh : Nat → String)
    (existingFeedbackItems existingFeedbackNames : List String) :
    List SimItem → List String → List String → List RecommendationDoc
  | [], _, _ => []
  | i :: rest, uids, seen =>
    let itemId := mkItemId userId i.name now
    let normalizedName := i.name.toLower
    if (uids.length : Int) < amount ∧ itemId ∉ uids ∧ normalizedName ∉ seen ∧
        normalizedName ∉ existingFeedbackItems ∧ normalizedName ∉ existingFeedbackNames then
      { _id := fresh uids.length
        userId := userId
        item1 := srcMBID
        item2 := itemId
        itemName := i.name
        reasoning := "Based on its similarity as a " ++ i.type ++
          " and shared genres. (LLM not available)"
        confidence := i.score / 100
        feedback := none
        createdAt := now } ::
        fallbackLoop userId srcMBID amount now fresh existingFeedbackItems
          existingFeedbackNames rest (itemId :: uids) (normalizedName :: seen)
    else
      fallbackLoop userId srcMBID amount now fresh existingFeedbackItems
        existingFeedbackNames rest uids seen

/-- Model of `generateFallbackRecommendations` (source, lines 350-460). Returns the action
result together with the updated store. -/
def generateFallbackRecommendations (userId srcMBID : String) (amount now : Int)
    (fresh : Nat → String) (artists : List SimilarArtist)
    (recordings : List SimilarRecording) (releaseGroups : List SimilarReleaseGroup)
    (userFeedbackHistory : List FeedbackEntry) (existingFeedbackNames : List String)
    (store : List RecommendationDoc) :
    Except String (List RecommendationDoc) × List RecommendationDoc :=
  let existingFeedbackItems := userFeedbackHistory.map (fun f => f.item.toLower)
  let newRecommendations := fallbackLoop userId srcMBID amount now fresh
    existingFeedbackItems existingFeedbackNames
    (fallbackCandidatePool amount artists recordings releaseGroups) [] []
  (.ok newRecommendations, store ++ newRecommendations)

/-- The accepted-candidate loop of the LLM path (source, lines 296-329): walk the parsed
LLM output, stop once `amount` records were accepted, and accept a candidate only when
its name is non-empty, differs from the source display name, and its lowercased form is
neither feedback-flagged nor previously recommended for this `(user, sourceItem)`.
The redundant double feedback check of the source collapses to one conjunct. -/
def llmLoop (userId srcMBID : String) (amount now : Int) (fresh : Nat → String)
    (displayName : Option String) (feedbackNames recommendedNames : List String) :
    List LLMRec → Int → List RecommendationDoc
  | [], _ => []
  | rec :: rest, count =>
    if amount ≤ count then []
    else
      let itemId := mkItemId userId rec.name now
      let normalizedName := rec.name.toLower
      if rec.name ≠ "" ∧
          (∀ s, displayName = some s → rec.name ≠ s) ∧
          ¬(normalizedName ≠ "" ∧ normalizedName ∈ feedbackNames) ∧
          ¬(normalizedName ≠ "" ∧ normalizedName ∈ recommendedNames) then
        { _id := fresh count.toNat
          userId := userId
          item1 := srcMBID
          item2 := itemId
          itemName := rec.name
          reasoning := rec.reasoning
          confidence := max 0 (min 1 rec.confidence)
          feedback := none
          createdAt := now } ::
          llmLoop userId srcMBID amount now fresh displayName feedbackNames
            recommendedNames rest (count + 1)
      else
        llmLoop userId srcMBID amount now fresh displayName feedbackNames
          recommendedNames rest count

/-- Model of `generate` (source, lines 112-344). The `llm` oracle stands for the configured-LLM
check, the completion call and JSON parsing (see the module docstring); everything else
is translated from the source. Returns the action result and the updated store. -/
def generate (userId sourceItem : String) (amount : Int) (meta : MusicBrainzEntity)
    (artists : List SimilarArtist) (recordings : List SimilarRecording)
    (releaseGroups : List SimilarReleaseGroup)
    (llm : Option (Except String (Option (List LLMRec)))) (now : Int)
    (fresh : Nat → String) (store : List RecommendationDoc) :
    Except String (List RecommendationDoc) × List RecommendationDoc :=
  if userId = "" ∨ sourceItem = "" ∨ amount ≤ 0 then
    (.error "Invalid user ID, source item or amount specified.", store)
  else
    let sourceItemMBID := resolveSourceMBID meta sourceItem
    let userFeedbackHistory := feedbackHistoryOf userId sourceItemMBID store
    let existingFeedbackNames := existingFeedbackNamesOf userId sourceItemMBID store
    let existingRecommendedNames := existingRecommendedNamesOf userId sourceItemMBID store
    match llm with
    | none =>
      generateFallbackRecommendations userId sourceItemMBID amount now fresh
        artists recordings releaseGroups userFeedbackHistory existingFeedbackNames store
    | some (.error e) =>
      (.error ("Failed to generate recommendations: " ++ e), store)
    | some (.ok none) =>
      (.error "Failed to parse LLM recommendations.", store)
    | some (.ok (some parsed)) =>
      let newRecommendations := llmLoop userId sourceItemMBID amount now fresh
        (srcDisplayName meta) existingFeedbackNames existingRecommendedNames parsed 0
      (.ok newRecommendations, store ++ newRecommendations)

/-- The record list of a successful `generate` result (empty on error). -/
def recsOf (p : Except String (List RecommendationDoc) × List RecommendationDoc) :
    List RecommendationDoc :=
  match p.1 with
  | .ok l => l
  | .error _ => []

/-- Model of `provideFeedback` (source, lines 608-639): validate, update every record of
`userId` whose `item2` is the given item (setting `feedback` and refreshing
`createdAt`), and report not-found when nothing matched. -/
def provideFeedback (userId recommendedItem : String) (feedback : Bool) (now : Int)
    (store : List RecommendationDoc) :
    Except String Unit × List RecommendationDoc :=
  if userId = "" ∨ recommendedItem = "" then
    (.error "User ID or recommended item not specified.", store)
  else
    let matched := store.filter (fun r =>
      decide (r.userId = userId ∧ r.item2 = recommendedItem))
    let updated := store.map (fun r =>
      if r.userId = userId ∧ r.item2 = recommendedItem then
        { r with feedback := some feedback, createdAt := now }
      else r)
    if matched.length = 0 then
      (.error "No existing recommendation found for the provided item and user.", updated)
    else
      (.ok (), updated)

/-- Entry of the `candidates` array of `getRecommendations` (source, lines 504-511). -/
structure Candidate where
  recommendedItem : String
  feedback : Option Bool
  confidence : ℚ
  createdAt : Int
  reasoning : String
  itemName : String
deriving Repr, DecidableEq

/-- Entry of the `itemsWithReasoning` list returned by `getRecommendations`. -/
structure OutItem where
  item : String
  itemName : String
  reasoning : String
  confidence : ℚ
deriving Repr, DecidableEq

instance exceptDecEq {e a : Type} [DecidableEq e] [DecidableEq a] :
    DecidableEq (Except e a)
  | .error x, .error y =>
    if h : x = y then .isTrue (by rw [h]) else .isFalse fun hc => h (by cases hc; rfl)
  | .error _, .ok _ => .isFalse fun hc => Except.noConfusion hc
  | .ok _, .error _ => .isFalse fun hc => Except.noConfusion hc
  | .ok x, .ok y =>
    if h : x = y then .isTrue (by rw [h]) else .isFalse fun hc => h (by cases hc; rfl)

/-- How one related record is turned into a candidate (source, lines 515-516 and
526-533): the side of the edge different from the queried `item` is the candidate,
and the stored display name travels only when the record is a forward edge
(`item1 = item`); a reverse-edge candidate gets the empty name. -/
def candidateOf (item : String) (r : RecommendationDoc) : Candidate :=
  if r.item1 = item then
    { recommendedItem := r.item2
      feedback := r.feedback
      confidence := r.confidence
      createdAt := r.createdAt
      reasoning := r.reasoning
      itemName := r.itemName }
  else
    { recommendedItem := r.item1
      feedback := r.feedback
      confidence := r.confidence
      createdAt := r.createdAt
      reasoning := r.reasoning
      itemName := "" }

/-- The `allRelatedRecommendations` query (source, lines 499-502): the user's records touching
`item` on either side. -/
def relatedRecs (userId item : String) (store : List RecommendationDoc) :
    List RecommendationDoc :=
  store.filter (fun r =>
    decide (r.userId = userId ∧ (r.item1 = item ∨ r.item2 = item)))

/-- The candidate-building loop of `getRecommendations` (source, lines 514-535):
skip the queried item itself, candidates already seen in this call, and candidates on
the `ignore` list; `seen` models the `seenItems` set. -/
def buildCandidates (item : String) (ignore : List String) :
    List RecommendationDoc → List String → List Candidate
  | [], _ => []
  | r :: rest, seen =>
    let c := candidateOf item r
    if c.recommendedItem = item ∨ c.recommendedItem ∈ seen ∨ c.recommendedItem ∈ ignore then
      buildCandidates item ignore rest seen
    else
      c :: buildCandidates item ignore rest (c.recommendedItem :: seen)

/-- The comparator passed to `candidates.sort` (source, lines 542-554). -/
def cmpCandidates (a b : Candidate) : ℚ :=
  if a.feedback = some true ∧ b.feedback ≠ some true then -1
  else if a.feedback ≠ some true ∧ b.feedback = some true then 1
  else if a.feedback = none ∧ b.feedback = some false then -1
  else if a.feedback = some false ∧ b.feedback = none then 1
  else if a.confidence ≠ b.confidence then b.confidence - a.confidence
  else ((b.createdAt - a.createdAt : Int) : ℚ)

/-- The ordering realised by the stable `Array.prototype.sort` with `cmpCandidates`:
`a` stays before `b` exactly when the comparator is ≤ 0. -/
def candLE (a b : Candidate) : Prop := cmpCandidates a b ≤ 0

instance : DecidableRel candLE := fun a b =>
  inferInstanceAs (Decidable (cmpCandidates a b ≤ 0))

/-- The sorted candidate list of `getRecommendations` for the given query. -/
def sortedRelatedCandidates (userId item : String) (ignore : List String)
    (store : List RecommendationDoc) : List Candidate :=
  List.insertionSort candLE (buildCandidates item ignore (relatedRecs userId item store) [])

/-- The per-candidate filter of the final loop (source, lines 566-586): with
`feedbacked` keep everything but negative feedback, without it keep only
unset feedback. -/
def qualifies (feedbacked : Bool) (c : Candidate) : Bool :=
  if feedbacked then !(c.feedback == some false) else c.feedback == none

/-- The final selection loop of `getRecommendations` (source, lines 562-587):
walk the sorted candidates, stop once `amount` were emitted, and emit only
qualifying candidates. -/
def selectLoop (feedbacked : Bool) (amount : Int) :
    List Candidate → Int → List Candidate
  | [], _ => []
  | c :: rest, count =>
    if amount ≤ count then []
    else if qualifies feedbacked c then
      c :: selectLoop feedbacked amount rest (count + 1)
    else
      selectLoop feedbacked amount rest count

/-- The candidates selected by a (validated) `getRecommendations` call, with their
full stored fields; `getRecommendations` returns their projections. -/
def selectedCandidates (userId item : String) (amount : Int) (feedbacked : Bool)
    (ignore : List String) (store : List RecommendationDoc) : List Candidate :=
  selectLoop feedbacked amount (sortedRelatedCandidates userId item ignore store) 0

/-- Projection pushed in the selection loop (source, lines 569-574). -/
def toOut (c : Candidate) : OutItem :=
  { item := c.recommendedItem
    itemName := c.itemName
    reasoning := c.reasoning
    confidence := c.confidence }

/-- Model of `getRecommendations` (source, lines 473-598). -/
def getRecommendations (userId item : String) (amount : Int) (feedbacked : Bool)
    (ignore : List String) (store : List RecommendationDoc) :
    Except String (List OutItem) :=
  if userId = "" ∨ item = "" ∨ amount ≤ 0 then
    .error "Invalid user ID, item or amount specified."
  else
    .ok ((selectedCandidates userId item amount feedbacked ignore store).map toOut)

/-- Model of `clearRecommendations` (source, lines 681-697): `userId ? {userId} : {}` as the
delete filter — a present, non-empty `userId` scopes the wipe to that user, while an
omitted or falsy (empty-string) `userId` deletes every record. -/
def clearRecommendations (userId : Option String) (store : List RecommendationDoc) :
    List RecommendationDoc :=
  if optTruthy userId then store.filter (fun r => !(r.userId == userId.getD "")) else []

/-- Rank of a feedback value in the spec's words (§4.2): positive feedback ranks
above unset feedback, which ranks above negative feedback. -/
def feedbackClass : Option Bool → Nat
  | some true => 0
  | none => 1
  | some false => 2

/-- The spec's ranking relation, written from the spec's words for comparison with
the source comparator: by feedback class, then confidence descending, then
`createdAt` descending. -/
def specRankLE (a b : Candidate) : Prop :=
  feedbackClass a.feedback < feedbackClass b.feedback ∨
    (feedbackClass a.feedback = feedbackClass b.feedback ∧
      (b.confidence < a.confidence ∨
        (a.confidence = b.confidence ∧ b.createdAt ≤ a.createdAt)))

instance (a b : Candidate) : Decidable (specRankLE a b) := by
  unfold specRankLE
  infer_instance

/-! ## Shared lemmas -/

theorem tailCmp_le_iff (a b : Candidate) :
    (if a.confidence ≠ b.confidence then b.confidence - a.confidence
      else ((b.createdAt - a.createdAt : Int) : ℚ)) ≤ 0 ↔
      (b.confidence < a.confidence ∨
        (a.confidence = b.confidence ∧ b.createdAt ≤ a.createdAt)) := by
  by_cases h : a.confidence = b.confidence
  · rw [if_neg (by simp [h])]
    constructor
    · intro hle
      have ht : (b.createdAt - a.createdAt : Int) ≤ 0 := by exact_mod_cast hle
      exact Or.inr ⟨h, by omega⟩
    · rintro (hlt | ⟨-, hte⟩)
      · exact absurd hlt (by rw [h]; exact lt_irrefl _)
      · have : (b.createdAt - a.createdAt : Int) ≤ 0 := by omega
        exact_mod_cast this
  · rw [if_pos h, sub_nonpos]
    constructor
    · intro hle
      exact Or.inl (lt_of_le_of_ne hle fun e => h e.symm)
    · rintro (hlt | ⟨he, -⟩)
      · exact le_of_lt hlt
      · exact absurd he h

/-- The source comparator keeps `a` before `b` (value ≤ 0) exactly when the spec's
ranking relation puts `a` at or above `b`. -/
theorem candLE_iff_specRankLE (a b : Candidate) : candLE a b ↔ specRankLE a b := by
  have htail := tailCmp_le_iff a b
  unfold candLE cmpCandidates specRankLE
  rcases hfa : a.feedback with - | fa
  · rcases hfb : b.feedback with - | fb
    · simp only [hfa, hfb, feedbackClass]
      simpa using htail
    · cases fb
      · simp +decide [hfa, hfb, feedbackClass]
      · simp +decide [hfa, hfb, feedbackClass]
  · cases fa
    · rcases hfb : b.feedback with - | fb
      · simp +decide [hfa, hfb, feedbackClass]
      · cases fb
        · simp only [hfa, hfb, feedbackClass]
          simpa using htail
        · simp +decide [hfa, hfb, feedbackClass]
    · rcases hfb : b.feedback with - | fb
      · simp +decide [hfa, hfb, feedbackClass]
      · cases fb
        · simp +decide [hfa, hfb, feedbackClass]
        · simp only [hfa, hfb, feedbackClass]
          simpa using htail

instance : IsTotal Candidate specRankLE :=
  ⟨by
    intro a b
    unfold specRankLE
    rcases Nat.lt_trichotomy (feedbackClass a.feedback) (feedbackClass b.feedback)
      with h | h | h
    · exact Or.inl (Or.inl h)
    · rcases lt_trichotomy a.confidence b.confidence with hc | hc | hc
      · exact Or.inr (Or.inr ⟨h.symm, Or.inl hc⟩)
      · rcases le_total b.createdAt a.createdAt with ht | ht
        · exact Or.inl (Or.inr ⟨h, Or.inr ⟨hc, ht⟩⟩)
        · exact Or.inr (Or.inr ⟨h.symm, Or.inr ⟨hc.symm, ht⟩⟩)
      · exact Or.inl (Or.inr ⟨h, Or.inl hc⟩)
    · exact Or.inr (Or.inl h)⟩

instance : IsTrans Candidate specRankLE :=
  ⟨by
    intro a b c hab hbc
    unfold specRankLE at hab hbc ⊢
    rcases hab with h1 | ⟨h1, h2⟩ <;> rcases hbc with g1 | ⟨g1, g2⟩
    · exact Or.inl (h1.trans g1)
    · exact Or.inl (g1 ▸ h1)
    · exact Or.inl (h1 ▸ g1)
    · refine Or.inr ⟨h1.trans g1, ?_⟩
      rcases h2 with hc | ⟨hc, ht⟩ <;> rcases g2 with gc | ⟨gc, gt⟩
      · exact Or.inl (gc.trans hc)
      · exact Or.inl (gc ▸ hc)
      · exact Or.inl (hc ▸ gc)
      · exact Or.inr ⟨hc.trans gc, gt.trans ht⟩⟩

instance : IsTotal Candidate candLE :=
  ⟨fun a b => by
    rcases IsTotal.total (r := specRankLE) a b with h | h
    · exact Or.inl ((candLE_iff_specRankLE a b).2 h)
    · exact Or.inr ((candLE_iff_specRankLE b a).2 h)⟩

instance : IsTrans Candidate candLE :=
  ⟨fun a b c hab hbc =>
    (candLE_iff_specRankLE a c).2
      (IsTrans.trans (r := specRankLE) a b c
        ((candLE_iff_specRankLE a b).1 hab) ((candLE_iff_specRankLE b c).1 hbc))⟩

/-- The selection loop of `getRecommendations` emits exactly the qualifying prefix:
filter first, then truncate. -/
theorem selectLoop_eq_take_filter (feedbacked : Bool) (amount : Int) :
    ∀ (l : List Candidate) (count : Int),
      selectLoop feedbacked amount l count =
        (l.filter (qualifies feedbacked)).take (amount - count).toNat
  | [], count => by simp [selectLoop]
  | c :: rest, count => by
    by_cases h : amount ≤ count
    · have h0 : (amount - count).toNat = 0 := by omega
      simp [selectLoop, if_pos h, h0]
    · by_cases hq : qualifies feedbacked c
      · have hn : (amount - count).toNat = (amount - (count + 1)).toNat + 1 := by omega
        simp only [selectLoop, if_neg h, if_pos hq,
          selectLoop_eq_take_filter feedbacked amount rest (count + 1),
          List.filter_cons_of_pos hq, hn, List.take_succ_cons]
      · simp only [selectLoop, if_neg h, if_neg hq,
          selectLoop_eq_take_filter feedbacked amount rest count,
          List.filter_cons_of_neg (by simpa using hq)]

theorem selectLoop_mem (feedbacked : Bool) (amount : Int) :
    ∀ (l : List Candidate) (count : Int) (c : Candidate),
      c ∈ selectLoop feedbacked amount l count →
      c ∈ l ∧ qualifies feedbacked c = true
  | [], _, _, h => by simp [selectLoop] at h
  | d :: rest, count, c, h => by
    by_cases hle : amount ≤ count
    · simp [selectLoop, if_pos hle] at h
    · by_cases hq : qualifies feedbacked d
      · rw [selectLoop, if_neg hle, if_pos hq, List.mem_cons] at h
        rcases h with rfl | h
        · exact ⟨List.mem_cons_self _ _, hq⟩
        · have := selectLoop_mem feedbacked amount rest (count + 1) c h
          exact ⟨List.mem_cons_of_mem _ this.1, this.2⟩
      · rw [selectLoop, if_neg hle, if_neg hq] at h
        have := selectLoop_mem feedbacked amount rest count c h
        exact ⟨List.mem_cons_of_mem _ this.1, this.2⟩

theorem buildCandidates_mem (item : String) (ignore : List String) :
    ∀ (recs : List RecommendationDoc) (seen : List String) (c : Candidate),
      c ∈ buildCandidates item ignore recs seen → ∃ r ∈ recs, c = candidateOf item r
  | [], _, _, h => by simp [buildCandidates] at h
  | r :: rest, seen, c, h => by
    rw [buildCandidates] at h
    split at h
    · obtain ⟨r2, hr2, hc⟩ := buildCandidates_mem item ignore rest seen c h
      exact ⟨r2, List.mem_cons_of_mem _ hr2, hc⟩
    · rcases List.mem_cons.1 h with rfl | h2
      · exact ⟨r, List.mem_cons_self _ _, rfl⟩
      · obtain ⟨r2, hr2, hc⟩ := buildCandidates_mem item ignore rest _ c h2
        exact ⟨r2, List.mem_cons_of_mem _ hr2, hc⟩

theorem candidateOf_feedback (item : String) (r : RecommendationDoc) :
    (candidateOf item r).feedback = r.feedback := by
  unfold candidateOf
  split <;> rfl

theorem relatedRecs_mem (userId item : String) (store : List RecommendationDoc)
    (r : RecommendationDoc) (h : r ∈ relatedRecs userId item store) :
    r ∈ store ∧ r.userId = userId ∧ (r.item1 = item ∨ r.item2 = item) := by
  rw [relatedRecs, List.mem_filter] at h
  exact ⟨h.1, by simpa using h.2⟩

theorem selectedCandidates_source (userId item : String) (amount : Int)
    (feedbacked : Bool) (ignore : List String) (store : List RecommendationDoc)
    (c : Candidate) (hc : c ∈ selectedCandidates userId item amount feedbacked ignore store) :
    qualifies feedbacked c = true ∧
      ∃ r, (r ∈ store ∧ r.userId = userId ∧ (r.item1 = item ∨ r.item2 = item)) ∧
        c = candidateOf item r := by
  obtain ⟨hmem, hq⟩ := selectLoop_mem feedbacked amount _ 0 c hc
  rw [sortedRelatedCandidates] at hmem
  have hmem2 : c ∈ buildCandidates item ignore (relatedRecs userId item store) [] :=
    (List.perm_insertionSort candLE _).mem_iff.1 hmem
  obtain ⟨r, hr, hcr⟩ := buildCandidates_mem item ignore _ _ c hmem2
  exact ⟨hq, r, relatedRecs_mem userId item store r hr, hcr⟩

/-! ## Claim theorems (getRecommendations) -/

/-- C4: every candidate returned by `getRecommendations` descends from a stored record
of this user touching the queried item, carrying that record's stored feedback; with
`feedbacked = true` (the default) no returned candidate's stored feedback is negative,
and with `feedbacked = false` every returned candidate's stored feedback is unset. -/
theorem getRecommendations_feedback_filtering (userId item : String) (amount : Int)
    (feedbacked : Bool) (ignore : List String) (store : List RecommendationDoc)
    (c : Candidate)
    (hc : c ∈ selectedCandidates userId item amount feedbacked ignore store) :
    (∃ r ∈ store, r.userId = userId ∧ (r.item1 = item ∨ r.item2 = item) ∧
      r.feedback = c.feedback) ∧
    (feedbacked = true → c.feedback ≠ some false) ∧
    (feedbacked = false → c.feedback = none) := by
  obtain ⟨hq, r, ⟨hr, hu, hi⟩, hcr⟩ :=
    selectedCandidates_source userId item amount feedbacked ignore store c hc
  refine ⟨⟨r, hr, hu, hi, by rw [hcr, candidateOf_feedback]⟩, ?_, ?_⟩
  · intro hf
    subst hf
    simp only [qualifies, if_pos rfl] at hq
    simpa using hq
  · intro hf
    subst hf
    simp only [qualifies] at hq
    simpa using hq

/-- Witness for C4: on a concrete store holding one positively-feedbacked record, the
single returned candidate descends from that record and its feedback is not negative. -/
theorem getRecommendations_feedback_filtering_witness :
    ∃ r ∈ [(⟨"r1", "u", "q", "p1", "P", "", 1, some true, 0⟩ : RecommendationDoc)],
      r.userId = "u" ∧ (r.item1 = "q" ∨ r.item2 = "q") ∧
        r.feedback = (⟨"p1", some true, 1, 0, "", "P"⟩ : Candidate).feedback := by
  exact (getRecommendations_feedback_filtering "u" "q" 1 true []
    [⟨"r1", "u", "q", "p1", "P", "", 1, some true, 0⟩] ⟨"p1", some true, 1, 0, "", "P"⟩
    (by with_unfolding_all decide)).1

/-- C10: a candidate emitted by `getRecommendations` either stems from a forward edge
(`item1` equals the queried item) and then carries the record's stored display name, or
it stems from a reverse edge (`item2` equals the queried item, the record's `item1` is
returned) and then its `itemName` is the empty string. -/
theorem getRecommendations_reverse_edge_blank_name (userId item : String) (amount : Int)
    (feedbacked : Bool) (ignore : List String) (store : List RecommendationDoc)
    (out : List OutItem)
    (h : getRecommendations userId item amount feedbacked ignore store = .ok out) :
    ∀ e ∈ out,
      (∃ r ∈ store, r.userId = userId ∧ r.item1 = item ∧ r.item2 = e.item ∧
        e.itemName = r.itemName) ∨
      (e.itemName = "" ∧ ∃ r ∈ store, r.userId = userId ∧ r.item2 = item ∧
        r.item1 = e.item) := by
  intro e he
  by_cases hval : userId = "" ∨ item = "" ∨ amount ≤ 0
  · rw [getRecommendations, if_pos hval] at h
    exact absurd h (by simp)
  · rw [getRecommendations, if_neg hval] at h
    obtain rfl : (selectedCandidates userId item amount feedbacked ignore store).map toOut
        = out := by
      injection h
    obtain ⟨c, hc, rfl⟩ := List.mem_map.1 he
    obtain ⟨-, r, ⟨hr, hu, hi⟩, hcr⟩ :=
      selectedCandidates_source userId item amount feedbacked ignore store c hc
    subst hcr
    by_cases h1 : r.item1 = item
    · exact Or.inl ⟨r, hr, hu, h1, by simp [toOut, candidateOf, if_pos h1]⟩
    · have h2 : r.item2 = item := hi.resolve_left h1
      exact Or.inr ⟨by simp [toOut, candidateOf, if_neg h1], r, hr, hu, h2,
        by simp [toOut, candidateOf, if_neg h1]⟩

/-- Witness for C10: a concrete store with one forward and one reverse record; the
reverse-edge candidate is emitted with an empty name. -/
theorem getRecommendations_reverse_edge_blank_name_witness :
    ((⟨"z", "", "", 7/10⟩ : OutItem).itemName = "" ∧
      ∃ r ∈ [(⟨"r1", "u", "z", "q", "Zed", "", 7/10, none, 0⟩ : RecommendationDoc)],
        r.userId = "u" ∧ r.item2 = "q" ∧ r.item1 = (⟨"z", "", "", 7/10⟩ : OutItem).item) := by
  have h := getRecommendations_reverse_edge_blank_name "u" "q" 3 true []
    [⟨"r1", "u", "z", "q", "Zed", "", 7/10, none, 0⟩] [⟨"z", "", "", 7/10⟩]
    (by with_unfolding_all decide) ⟨"z", "", "", 7/10⟩ (List.mem_cons_self _ _)
  rcases h with ⟨r, hr, -, h1, -, -⟩ | h
  · rw [List.mem_singleton] at hr
    subst hr
    exact absurd h1 (by with_unfolding_all decide)
  · exact h

/-- C5: `getRecommendations` ranks all candidates with the source comparator — which
coincides with the spec's ordering: feedback class, then confidence descending, then
`createdAt` descending — and only then filters and truncates to `amount`: the result is
the `amount`-prefix of the qualifying candidates of the fully sorted list. -/
theorem getRecommendations_ranking (userId item : String) (amount : Int)
    (feedbacked : Bool) (ignore : List String) (store : List RecommendationDoc)
    (h1 : userId ≠ "") (h2 : item ≠ "") (h3 : 0 < amount) :
    getRecommendations userId item amount feedbacked ignore store =
      .ok ((((sortedRelatedCandidates userId item ignore store).filter
        (qualifies feedbacked)).take amount.toNat).map toOut) ∧
    List.Pairwise specRankLE (sortedRelatedCandidates userId item ignore store) ∧
    (sortedRelatedCandidates userId item ignore store).Perm
      (buildCandidates item ignore (relatedRecs userId item store) []) := by
  have hval : ¬(userId = "" ∨ item = "" ∨ amount ≤ 0) := by
    rintro (h | h | h) <;> [exact h1 h; exact h2 h; omega]
  refine ⟨?_, ?_, List.perm_insertionSort candLE _⟩
  · rw [getRecommendations, if_neg hval, selectedCandidates,
      selectLoop_eq_take_filter feedbacked amount _ 0]
    norm_num
  · exact (List.sorted_insertionSort candLE _).imp fun hab =>
      (candLE_iff_specRankLE _ _).1 hab

/-- Witness for C5: the spec's own §8 ranking example — candidates with feedback
{positive, unset, negative} and confidences {0.7, 0.6, 0.95} — yields exactly
[positive(0.7), unset(0.6)] under the default mode. -/
theorem getRecommendations_ranking_witness :
    getRecommendations "u" "q" 3 true []
      [⟨"r1", "u", "q", "p1", "P", "", 7/10, some true, 0⟩,
       ⟨"r2", "u", "q", "p2", "U", "", 6/10, none, 0⟩,
       ⟨"r3", "u", "q", "p3", "N", "", 95/100, some false, 0⟩] =
      .ok ((((sortedRelatedCandidates "u" "q" []
        [⟨"r1", "u", "q", "p1", "P", "", 7/10, some true, 0⟩,
         ⟨"r2", "u", "q", "p2", "U", "", 6/10, none, 0⟩,
         ⟨"r3", "u", "q", "p3", "N", "", 95/100, some false, 0⟩]).filter
        (qualifies true)).take (Int.toNat 3)).map toOut) ∧
    (getRecommendations "u" "q" 3 true []
      [⟨"r1", "u", "q", "p1", "P", "", 7/10, some true, 0⟩,
       ⟨"r2", "u", "q", "p2", "U", "", 6/10, none, 0⟩,
       ⟨"r3", "u", "q", "p3", "N", "", 95/100, some false, 0⟩]).toOption =
      some [⟨"p1", "P", "", 7/10⟩, ⟨"p2", "U", "", 6/10⟩] := by
  refine ⟨(getRecommendations_ranking "u" "q" 3 true [] _
    (by decide) (by decide) (by decide)).1, ?_⟩
  with_unfolding_all decide

/-! ## Shared lemmas -/

theorem map_eq_self_of_forall {α : Type} {f : α → α} :
    ∀ {l : List α}, (∀ x ∈ l, f x = x) → l.map f = l
  | [], _ => rfl
  | x :: xs, h => by
    simp only [List.map_cons, List.cons.injEq]
    exact ⟨h x (List.mem_cons_self x xs), map_eq_self_of_forall fun y hy =>
      h y (List.mem_cons_of_mem x hy)⟩

/-! ## Claim theorems -/

/-- C9: `clearRecommendations` with an empty-string `userId` builds an empty delete
filter, so it wipes every user's records, exactly as an omitted `userId` does; there is
no validation error and no per-user scoping. -/
theorem clearRecommendations_empty_string_wipes_all (store : List RecommendationDoc) :
    clearRecommendations (some "") store = [] ∧
    clearRecommendations (some "") store = clearRecommendations none store := by
  refine ⟨?_, ?_⟩ <;> simp [clearRecommendations, optTruthy]

/-- C8: `generate` is atomic on failure. Empty `userId` or `sourceItem` or a
non-positive `amount` yields the validation error with the store untouched; a throwing
completion call or unparseable LLM output yields an error with the store untouched
(zero records stored). -/
theorem generate_atomic_on_failure (userId sourceItem : String) (amount : Int)
    (meta : MusicBrainzEntity) (artists : List SimilarArtist)
    (recordings : List SimilarRecording) (releaseGroups : List SimilarReleaseGroup)
    (llm : Option (Except String (Option (List LLMRec)))) (now : Int)
    (fresh : Nat → String) (store : List RecommendationDoc) :
    (userId = "" ∨ sourceItem = "" ∨ amount ≤ 0 →
      generate userId sourceItem amount meta artists recordings releaseGroups llm now
          fresh store =
        (.error "Invalid user ID, source item or amount specified.", store)) ∧
    (∀ e, llm = some (.error e) →
      (generate userId sourceItem amount meta artists recordings releaseGroups llm now
          fresh store).2 = store ∧
      ∃ msg, (generate userId sourceItem amount meta artists recordings releaseGroups
          llm now fresh store).1 = .error msg) ∧
    (llm = some (.ok none) →
      (generate userId sourceItem amount meta artists recordings releaseGroups llm now
          fresh store).2 = store ∧
      ∃ msg, (generate userId sourceItem amount meta artists recordings releaseGroups
          llm now fresh store).1 = .error msg) := by
  refine ⟨fun h => ?_, fun e he => ?_, fun hp => ?_⟩
  · simp only [generate, if_pos h]
  · by_cases h : userId = "" ∨ sourceItem = "" ∨ amount ≤ 0
    · simp only [generate, if_pos h]
      exact ⟨trivial, _, rfl⟩
    · subst he
      simp only [generate, if_neg h]
      exact ⟨trivial, _, rfl⟩
  · by_cases h : userId = "" ∨ sourceItem = "" ∨ amount ≤ 0
    · simp only [generate, if_pos h]
      exact ⟨trivial, _, rfl⟩
    · subst hp
      simp only [generate, if_neg h]
      exact ⟨trivial, _, rfl⟩


/-- Witness for C8: the validation error at an empty `userId`, and the parse-failure
error, each leave a concrete store untouched. -/
theorem generate_atomic_on_failure_witness :
    generate "" "s" 1 {} [] [] [] none 0 (fun _ => "i")
        [⟨"r1", "u", "s", "x", "X", "", 1, none, 0⟩] =
      (.error "Invalid user ID, source item or amount specified.",
        [⟨"r1", "u", "s", "x", "X", "", 1, none, 0⟩]) ∧
    (generate "u" "s" 1 {} [] [] [] (some (.ok none)) 0 (fun _ => "i")
        [⟨"r1", "u", "s", "x", "X", "", 1, none, 0⟩]).2 =
      [⟨"r1", "u", "s", "x", "X", "", 1, none, 0⟩] := by
  refine ⟨(generate_atomic_on_failure "" "s" 1 {} [] [] [] none 0 (fun _ => "i")
    [⟨"r1", "u", "s", "x", "X", "", 1, none, 0⟩]).1 (Or.inl rfl), ?_⟩
  exact ((generate_atomic_on_failure "u" "s" 1 {} [] [] [] (some (.ok none)) 0
    (fun _ => "i") [⟨"r1", "u", "s", "x", "X", "", 1, none, 0⟩]).2.2 rfl).1

/-- C7: `provideFeedback` with non-empty arguments fails with the not-found error and
leaves the store untouched when no record of this user has `item2` equal to the given
item; otherwise it succeeds, sets `feedback` and refreshes `createdAt` on every
matching record, and leaves every other record (and every other field) unchanged. -/
theorem provideFeedback_updates_matching (userId recommendedItem : String) (fb : Bool)
    (now : Int) (store : List RecommendationDoc)
    (h1 : userId ≠ "") (h2 : recommendedItem ≠ "") :
    ((∀ r ∈ store, ¬(r.userId = userId ∧ r.item2 = recommendedItem)) →
      provideFeedback userId recommendedItem fb now store =
        (.error "No existing recommendation found for the provided item and user.",
          store)) ∧
    ((∃ r ∈ store, r.userId = userId ∧ r.item2 = recommendedItem) →
      (provideFeedback userId recommendedItem fb now store).1 = .ok () ∧
      (provideFeedback userId recommendedItem fb now store).2.length = store.length ∧
      ∀ i (hi : i < store.length)
          (hi2 : i < (provideFeedback userId recommendedItem fb now store).2.length),
        ((store.get ⟨i, hi⟩).userId = userId ∧
            (store.get ⟨i, hi⟩).item2 = recommendedItem →
          (provideFeedback userId recommendedItem fb now store).2.get ⟨i, hi2⟩ =
            { store.get ⟨i, hi⟩ with feedback := some fb, createdAt := now }) ∧
        (¬((store.get ⟨i, hi⟩).userId = userId ∧
            (store.get ⟨i, hi⟩).item2 = recommendedItem) →
          (provideFeedback userId recommendedItem fb now store).2.get ⟨i, hi2⟩ =
            store.get ⟨i, hi⟩)) := by
  have hval : ¬(userId = "" ∨ recommendedItem = "") := by
    rintro (h | h) <;> [exact h1 h; exact h2 h]
  constructor
  · intro hnone
    have hfil : store.filter (fun r =>
        decide (r.userId = userId ∧ r.item2 = recommendedItem)) = [] := by
      rw [List.filter_eq_nil_iff]
      intro r hr
      simpa using hnone r hr
    have hmap : store.map (fun r =>
        if r.userId = userId ∧ r.item2 = recommendedItem then
          { r with feedback := some fb, createdAt := now }
        else r) = store := by
      refine map_eq_self_of_forall fun r hr => ?_
      rw [if_neg (hnone r hr)]
    have hlen : (store.filter (fun r =>
        decide (r.userId = userId ∧ r.item2 = recommendedItem))).length = 0 := by
      rw [hfil]
      rfl
    simp only [provideFeedback, if_neg hval]
    rw [if_pos hlen, hmap]
  · rintro ⟨r, hr, hmatch⟩
    have hfil : (store.filter (fun r =>
        decide (r.userId = userId ∧ r.item2 = recommendedItem))).length ≠ 0 := by
      intro h0
      rw [List.length_eq_zero, List.filter_eq_nil_iff] at h0
      exact h0 r hr (by simpa using hmatch)
    refine ⟨?_, ?_, ?_⟩
    · simp only [provideFeedback, if_neg hval, if_neg hfil]
    · simp only [provideFeedback, if_neg hval, if_neg hfil, List.length_map]
    · intro i hi hi2
      constructor <;> intro hcase <;>
        simp only [List.get_eq_getElem] at hcase <;>
        simp only [provideFeedback, if_neg hval, if_neg hfil, List.get_eq_getElem,
          List.getElem_map] <;>
        [rw [if_pos hcase]; rw [if_neg hcase]]

/-- Witness for C7: on a concrete one-record store, feedback on the recommended item
succeeds and rewrites that record's feedback and timestamp. -/
theorem provideFeedback_updates_matching_witness :
    (provideFeedback "u" "x" true 5 [⟨"r1", "u", "s", "x", "X", "why", 1, none, 0⟩]).1 =
      .ok () := by
  exact ((provideFeedback_updates_matching "u" "x" true 5
      [⟨"r1", "u", "s", "x", "X", "why", 1, none, 0⟩] (by decide) (by decide)).2
    ⟨⟨"r1", "u", "s", "x", "X", "why", 1, none, 0⟩,
      List.mem_cons_self _ _, rfl, rfl⟩).1

/-! ## Lemmas about the two generation paths -/

theorem fallbackLoop_name_fresh (userId srcMBID : String) (amount now : Int)
    (fresh : Nat → String) (f1 f2 : List String) :
    ∀ (items : List SimItem) (uids seen : List String) (d : RecommendationDoc),
      d ∈ fallbackLoop userId srcMBID amount now fresh f1 f2 items uids seen →
      d.itemName.toLower ∉ seen ∧ d.itemName.toLower ∉ f1 ∧ d.itemName.toLower ∉ f2
  | [], _, _, _, h => by simp [fallbackLoop] at h
  | i :: rest, uids, seen, d, h => by
    simp only [fallbackLoop] at h
    split at h
    · rcases List.mem_cons.1 h with rfl | h2
      · rename_i hcond
        exact ⟨hcond.2.2.1, hcond.2.2.2.1, hcond.2.2.2.2⟩
      · have := fallbackLoop_name_fresh userId srcMBID amount now fresh f1 f2 rest _ _ d h2
        exact ⟨fun hs => this.1 (List.mem_cons_of_mem _ hs), this.2.1, this.2.2⟩
    · exact fallbackLoop_name_fresh userId srcMBID amount now fresh f1 f2 rest _ _ d h

theorem fallbackLoop_pairwise_names (userId srcMBID : String) (amount now : Int)
    (fresh : Nat → String) (f1 f2 : List String) :
    ∀ (items : List SimItem) (uids seen : List String),
      List.Pairwise (fun x y : RecommendationDoc => x.itemName.toLower ≠ y.itemName.toLower)
        (fallbackLoop userId srcMBID amount now fresh f1 f2 items uids seen)
  | [], _, _ => by simp [fallbackLoop]
  | i :: rest, uids, seen => by
    simp only [fallbackLoop]
    split
    · refine List.Pairwise.cons (fun y hy => ?_)
        (fallbackLoop_pairwise_names userId srcMBID amount now fresh f1 f2 rest _ _)
      have hy2 := (fallbackLoop_name_fresh userId srcMBID amount now fresh f1 f2
        rest _ _ y hy).1
      intro he
      exact hy2 (he ▸ List.mem_cons_self _ _)
    · exact fallbackLoop_pairwise_names userId srcMBID amount now fresh f1 f2 rest _ _

theorem fallbackLoop_mem_source (userId srcMBID : String) (amount now : Int)
    (fresh : Nat → String) (f1 f2 : List String) :
    ∀ (items : List SimItem) (uids seen : List String) (d : RecommendationDoc),
      d ∈ fallbackLoop userId srcMBID amount now fresh f1 f2 items uids seen →
      ∃ i ∈ items, d.itemName = i.name ∧ d.confidence = i.score / 100
  | [], _, _, _, h => by simp [fallbackLoop] at h
  | i :: rest, uids, seen, d, h => by
    simp only [fallbackLoop] at h
    split at h
    · rcases List.mem_cons.1 h with rfl | h2
      · exact ⟨i, List.mem_cons_self _ _, rfl, rfl⟩
      · obtain ⟨j, hj, hd⟩ :=
          fallbackLoop_mem_source userId srcMBID amount now fresh f1 f2 rest _ _ d h2
        exact ⟨j, List.mem_cons_of_mem _ hj, hd⟩
    · obtain ⟨j, hj, hd⟩ :=
        fallbackLoop_mem_source userId srcMBID amount now fresh f1 f2 rest _ _ d h
      exact ⟨j, List.mem_cons_of_mem _ hj, hd⟩

theorem llmLoop_mem_props (userId srcMBID : String) (amount now : Int)
    (fresh : Nat → String) (displayName : Option String)
    (feedbackNames recommendedNames : List String) :
    ∀ (parsed : List LLMRec) (count : Int) (d : RecommendationDoc),
      d ∈ llmLoop userId srcMBID amount now fresh displayName feedbackNames
        recommendedNames parsed count →
      d.itemName ≠ "" ∧
      (∀ s, displayName = some s → d.itemName ≠ s) ∧
      ¬(d.itemName.toLower ≠ "" ∧ d.itemName.toLower ∈ feedbackNames) ∧
      ¬(d.itemName.toLower ≠ "" ∧ d.itemName.toLower ∈ recommendedNames) ∧
      0 ≤ d.confidence ∧ d.confidence ≤ 1
  | [], _, _, h => by simp [llmLoop] at h
  | rec :: rest, count, d, h => by
    simp only [llmLoop] at h
    split at h
    · simp at h
    · split at h
      · rcases List.mem_cons.1 h with rfl | h2
        · rename_i hcond
          refine ⟨hcond.1, hcond.2.1, hcond.2.2.1, hcond.2.2.2, ?_, ?_⟩
          · exact le_max_left 0 _
          · exact max_le (by norm_num) (min_le_left 1 _)
        · exact llmLoop_mem_props userId srcMBID amount now fresh displayName
            feedbackNames recommendedNames rest _ d h2
      · exact llmLoop_mem_props userId srcMBID amount now fresh displayName
          feedbackNames recommendedNames rest _ d h

theorem existingRecommendedNamesOf_ne_empty (userId src : String)
    (store : List RecommendationDoc) (n : String)
    (hn : n ∈ existingRecommendedNamesOf userId src store) : n ≠ "" := by
  rw [existingRecommendedNamesOf, List.mem_filter] at hn
  intro he
  subst he
  simpa using hn.2

theorem recsOf_generate_fallback (userId sourceItem : String) (amount : Int)
    (meta : MusicBrainzEntity) (artists : List SimilarArtist)
    (recordings : List SimilarRecording) (releaseGroups : List SimilarReleaseGroup)
    (now : Int) (fresh : Nat → String) (store : List RecommendationDoc)
    (hval : ¬(userId = "" ∨ sourceItem = "" ∨ amount ≤ 0)) :
    recsOf (generate userId sourceItem amount meta artists recordings releaseGroups
        none now fresh store) =
      fallbackLoop userId (resolveSourceMBID meta sourceItem) amount now fresh
        ((feedbackHistoryOf userId (resolveSourceMBID meta sourceItem) store).map
          (fun f => f.item.toLower))
        (existingFeedbackNamesOf userId (resolveSourceMBID meta sourceItem) store)
        (fallbackCandidatePool amount artists recordings releaseGroups) [] [] := by
  rw [generate, if_neg hval]
  rfl

theorem recsOf_generate_llm (userId sourceItem : String) (amount : Int)
    (meta : MusicBrainzEntity) (artists : List SimilarArtist)
    (recordings : List SimilarRecording) (releaseGroups : List SimilarReleaseGroup)
    (parsed : List LLMRec) (now : Int) (fresh : Nat → String)
    (store : List RecommendationDoc)
    (hval : ¬(userId = "" ∨ sourceItem = "" ∨ amount ≤ 0)) :
    recsOf (generate userId sourceItem amount meta artists recordings releaseGroups
        (some (.ok (some parsed))) now fresh store) =
      llmLoop userId (resolveSourceMBID meta sourceItem) amount now fresh
        (srcDisplayName meta)
        (existingFeedbackNamesOf userId (resolveSourceMBID meta sourceItem) store)
        (existingRecommendedNamesOf userId (resolveSourceMBID meta sourceItem) store)
        parsed 0 := by
  rw [generate, if_neg hval]
  rfl

/-! ## Claim theorems (generate paths) -/

/-- Counterexample for C1: with the LLM configured, an output listing the same name
twice yields two records with identical lowercased names in one successful batch —
the LLM path performs no in-batch dedup. -/
theorem generate_llm_batch_duplicate_names :
    (recsOf (generate "u" "s" 2 {} [] [] []
      (some (.ok (some [⟨"A", "r", 1/2⟩, ⟨"A", "r", 1/2⟩]))) 0 (fun n => toString n)
      [])).map (fun d => d.itemName) = ["A", "A"] ∧
    ¬ List.Pairwise
      (fun x y : RecommendationDoc => x.itemName.toLower ≠ y.itemName.toLower)
      (recsOf (generate "u" "s" 2 {} [] [] []
        (some (.ok (some [⟨"A", "r", 1/2⟩, ⟨"A", "r", 1/2⟩]))) 0 (fun n => toString n)
        [])) := by
  with_unfolding_all decide

/-- C1 (amended): the fallback path returns records with pairwise-distinct lowercased
`itemName`; the LLM path only guarantees each accepted name is distinct (lowercased)
from every name previously stored for this `(user, sourceItem)` — duplicates inside
one LLM output are not removed. -/
theorem generate_batch_name_dedup (userId sourceItem : String) (amount : Int)
    (meta : MusicBrainzEntity) (artists : List SimilarArtist)
    (recordings : List SimilarRecording) (releaseGroups : List SimilarReleaseGroup)
    (now : Int) (fresh : Nat → String) (store : List RecommendationDoc) :
    List.Pairwise
      (fun x y : RecommendationDoc => x.itemName.toLower ≠ y.itemName.toLower)
      (recsOf (generate userId sourceItem amount meta artists recordings releaseGroups
        none now fresh store)) ∧
    (∀ parsed : List LLMRec,
      ∀ d ∈ recsOf (generate userId sourceItem amount meta artists recordings
        releaseGroups (some (.ok (some parsed))) now fresh store),
      d.itemName.toLower ∉
        existingRecommendedNamesOf userId (resolveSourceMBID meta sourceItem) store) := by
  constructor
  · by_cases hval : userId = "" ∨ sourceItem = "" ∨ amount ≤ 0
    · rw [generate, if_pos hval]
      exact List.Pairwise.nil
    · rw [recsOf_generate_fallback userId sourceItem amount meta artists recordings
        releaseGroups now fresh store hval]
      exact fallbackLoop_pairwise_names userId _ amount now fresh _ _ _ [] []
  · intro parsed d hd
    by_cases hval : userId = "" ∨ sourceItem = "" ∨ amount ≤ 0
    · rw [generate, if_pos hval] at hd
      simp [recsOf] at hd
    · rw [recsOf_generate_llm userId sourceItem amount meta artists recordings
        releaseGroups parsed now fresh store hval] at hd
      have hp := llmLoop_mem_props userId _ amount now fresh _ _ _ parsed 0 d hd
      intro hmem
      exact hp.2.2.2.1
        ⟨existingRecommendedNamesOf_ne_empty userId _ store _ hmem, hmem⟩

/-- Witness for C1 (amended): a concrete fallback batch with a repeated upstream name
comes back deduplicated, and a concrete LLM batch avoids the previously stored name. -/
theorem generate_batch_name_dedup_witness :
    List.Pairwise
      (fun x y : RecommendationDoc => x.itemName.toLower ≠ y.itemName.toLower)
      (recsOf (generate "u" "s" 3 {} [⟨"m1", "A", 90, []⟩, ⟨"m2", "a", 80, []⟩,
        ⟨"m3", "B", 70, []⟩] [] [] none 0 (fun n => toString n) [])) ∧
    (⟨"0", "u", "s", "rec:u:a:0", "A", "r", 1/2, none, 0⟩ : RecommendationDoc).itemName.toLower ∉
      existingRecommendedNamesOf "u" "s"
        [⟨"r1", "u", "s", "x2", "B", "", 1, none, 0⟩] := by
  constructor
  · exact (generate_batch_name_dedup "u" "s" 3 {} [⟨"m1", "A", 90, []⟩,
      ⟨"m2", "a", 80, []⟩, ⟨"m3", "B", 70, []⟩] [] [] 0 (fun n => toString n) []).1
  · exact (generate_batch_name_dedup "u" "s" 1 {} [] [] [] 0 (fun n => toString n)
      [⟨"r1", "u", "s", "x2", "B", "", 1, none, 0⟩]).2 [⟨"A", "r", 1/2⟩]
      ⟨"0", "u", "s", "rec:u:a:0", "A", "r", 1/2, none, 0⟩
      (by with_unfolding_all decide)

/-- Counterexample for C2: the fallback path has no source-exclusion check — a
candidate whose name equals the source item's display name is stored verbatim. -/
theorem generate_fallback_no_source_exclusion :
    (recsOf (generate "u" "s" 1 { id := some "s", name := some "A" }
      [⟨"m1", "A", 90, []⟩] [] [] none 0 (fun n => toString n) [])).map
      (fun d => d.itemName) = ["A"] ∧
    srcDisplayName { id := some "s", name := some "A" } = some "A" := by
  with_unfolding_all decide

/-- C2 (amended): in the LLM path every created record's `itemName` is non-empty and
differs (case-sensitively) from the source item's display name (metadata `name`,
falling back to `title`); the fallback path performs no such check. -/
theorem generate_llm_source_exclusion (userId sourceItem : String) (amount : Int)
    (meta : MusicBrainzEntity) (artists : List SimilarArtist)
    (recordings : List SimilarRecording) (releaseGroups : List SimilarReleaseGroup)
    (parsed : List LLMRec) (now : Int) (fresh : Nat → String)
    (store : List RecommendationDoc) :
    ∀ d ∈ recsOf (generate userId sourceItem amount meta artists recordings
      releaseGroups (some (.ok (some parsed))) now fresh store),
      d.itemName ≠ "" ∧ ∀ s, srcDisplayName meta = some s → d.itemName ≠ s := by
  intro d hd
  by_cases hval : userId = "" ∨ sourceItem = "" ∨ amount ≤ 0
  · rw [generate, if_pos hval] at hd
    simp [recsOf] at hd
  · rw [recsOf_generate_llm userId sourceItem amount meta artists recordings
      releaseGroups parsed now fresh store hval] at hd
    have hp := llmLoop_mem_props userId _ amount now fresh _ _ _ parsed 0 d hd
    exact ⟨hp.1, hp.2.1⟩

/-- Witness for C2 (amended): with metadata display name "B", a concrete LLM batch's
record is named "A", which is non-empty and differs from "B". -/
theorem generate_llm_source_exclusion_witness :
    (⟨"0", "u", "s", "rec:u:a:0", "A", "r", 1/2, none, 0⟩ : RecommendationDoc) ∈
      recsOf (generate "u" "s" 1 { name := some "B" } [] [] []
        (some (.ok (some [⟨"A", "r", 1/2⟩]))) 0 (fun n => toString n) []) ∧
    (⟨"0", "u", "s", "rec:u:a:0", "A", "r", 1/2, none, 0⟩ : RecommendationDoc).itemName ≠
      "B" := by
  refine ⟨by with_unfolding_all decide, ?_⟩
  exact (generate_llm_source_exclusion "u" "s" 1 { name := some "B" } [] [] []
    [⟨"A", "r", 1/2⟩] 0 (fun n => toString n) []
    ⟨"0", "u", "s", "rec:u:a:0", "A", "r", 1/2, none, 0⟩
    (by with_unfolding_all decide)).2 "B" (by with_unfolding_all decide)

/-- Counterexample for C3: a fallback candidate with score 200 is stored with
confidence 2, outside [0,1] — the fallback normalization `score / 100` is unclamped. -/
theorem generate_fallback_confidence_above_one :
    (recsOf (generate "u" "s" 1 {} [⟨"m1", "A", 200, []⟩] [] [] none 0
      (fun n => toString n) [])).map (fun d => d.confidence) = [2] ∧
    ¬ ∀ d ∈ recsOf (generate "u" "s" 1 {} [⟨"m1", "A", 200, []⟩] [] [] none 0
      (fun n => toString n) []), d.confidence ≤ 1 := by
  with_unfolding_all decide

/-- C3 (amended): in the LLM path the stored confidence is clamped into [0,1] for
every LLM-reported value; in the fallback path the stored confidence is the raw score
divided by 100, which lies in [0,1] exactly when the upstream scores lie in [0,100]
(unchecked by the code). -/
theorem generate_confidence_range (userId sourceItem : String) (amount : Int)
    (meta : MusicBrainzEntity) (artists : List SimilarArtist)
    (recordings : List SimilarRecording) (releaseGroups : List SimilarReleaseGroup)
    (now : Int) (fresh : Nat → String) (store : List RecommendationDoc) :
    (∀ parsed : List LLMRec,
      ∀ d ∈ recsOf (generate userId sourceItem amount meta artists recordings
        releaseGroups (some (.ok (some parsed))) now fresh store),
      0 ≤ d.confidence ∧ d.confidence ≤ 1) ∧
    ((∀ x ∈ artists, 0 ≤ x.score ∧ x.score ≤ 100) →
      (∀ x ∈ recordings, 0 ≤ x.score ∧ x.score ≤ 100) →
      (∀ x ∈ releaseGroups, 0 ≤ x.score ∧ x.score ≤ 100) →
      ∀ d ∈ recsOf (generate userId sourceItem amount meta artists recordings
        releaseGroups none now fresh store),
      0 ≤ d.confidence ∧ d.confidence ≤ 1) := by
  constructor
  · intro parsed d hd
    by_cases hval : userId = "" ∨ sourceItem = "" ∨ amount ≤ 0
    · rw [generate, if_pos hval] at hd
      simp [recsOf] at hd
    · rw [recsOf_generate_llm userId sourceItem amount meta artists recordings
        releaseGroups parsed now fresh store hval] at hd
      exact (llmLoop_mem_props userId _ amount now fresh _ _ _ parsed 0 d hd).2.2.2.2
  · intro ha hr hg d hd
    by_cases hval : userId = "" ∨ sourceItem = "" ∨ amount ≤ 0
    · rw [generate, if_pos hval] at hd
      simp [recsOf] at hd
    · rw [recsOf_generate_fallback userId sourceItem amount meta artists recordings
        releaseGroups now fresh store hval] at hd
      obtain ⟨i, hi, -, hconf⟩ :=
        fallbackLoop_mem_source userId _ amount now fresh _ _ _ [] [] d hd
      have hi2 : i ∈ mergeSimilar artists recordings releaseGroups :=
        (List.perm_insertionSort scoreGE _).mem_iff.1
          (List.take_subset _ _ hi)
      have hscore : 0 ≤ i.score ∧ i.score ≤ 100 := by
        rw [mergeSimilar] at hi2
        rcases List.mem_append.1 hi2 with hi3 | hi3
        · rcases List.mem_append.1 hi3 with hi4 | hi4
          · obtain ⟨x, hx, rfl⟩ := List.mem_map.1 hi4
            exact ha x hx
          · obtain ⟨x, hx, rfl⟩ := List.mem_map.1 hi4
            exact hr x hx
        · obtain ⟨x, hx, rfl⟩ := List.mem_map.1 hi3
          exact hg x hx
      rw [hconf]
      constructor
      · exact div_nonneg hscore.1 (by norm_num)
      · rw [div_le_one (by norm_num)]
        linarith [hscore.2]

/-- Witness for C3 (amended): an out-of-range LLM confidence (3/2) is clamped to 1,
and a concrete fallback call with scores in [0,100] yields confidences in [0,1]. -/
theorem generate_confidence_range_witness :
    (∀ d ∈ recsOf (generate "u" "s" 1 {} [] [] []
      (some (.ok (some [⟨"A", "r", 3/2⟩]))) 0 (fun n => toString n) []),
      0 ≤ d.confidence ∧ d.confidence ≤ 1) ∧
    (∀ d ∈ recsOf (generate "u" "s" 1 {} [⟨"m1", "A", 90, []⟩] [] [] none 0
      (fun n => toString n) []), 0 ≤ d.confidence ∧ d.confidence ≤ 1) := by
  constructor
  · exact (generate_confidence_range "u" "s" 1 {} [] [] [] 0 (fun n => toString n)
      []).1 [⟨"A", "r", 3/2⟩]
  · exact (generate_confidence_range "u" "s" 1 {} [⟨"m1", "A", 90, []⟩] [] [] 0
      (fun n => toString n) []).2
      (by intro x hx; rw [List.mem_singleton] at hx; subst hx; constructor <;> norm_num)
      (by simp) (by simp)

/-! ## Lemmas for the fallback greedy pass (C6) -/

theorem slugify_eq_of_toLower_eq (a b : String) (h : a.toLower = b.toLower) :
    slugify a = slugify b := by
  unfold slugify
  rw [h]

theorem mkItemId_inj_slug (userId : String) (now : Int) (a b : String)
    (h : mkItemId userId a now = mkItemId userId b now) : slugify a = slugify b := by
  unfold mkItemId at h
  have hd := congrArg String.data h
  simp only [String.data_append, List.append_assoc] at hd
  have h1 := List.append_cancel_left hd
  have h2 := List.append_cancel_left h1
  have h3 := List.append_cancel_left h2
  have h4 : (slugify a).data ++ (":".data ++ (toString now).data) =
      (slugify b).data ++ (":".data ++ (toString now).data) := by
    simpa [List.append_assoc] using h3
  exact String.ext (List.append_cancel_right h4)

theorem length_le_filter_ne_add_one {α β : Type} [DecidableEq β] (f : α → β) (v : β) :
    ∀ S : List α, S.Pairwise (fun a b => f a ≠ f b) →
      S.length ≤ (S.filter (fun s => decide (f s ≠ v))).length + 1
  | [], _ => by simp
  | s :: S, h => by
    obtain ⟨hhead, htail⟩ := List.pairwise_cons.1 h
    by_cases hv : f s = v
    · have hkeep : S.filter (fun x => decide (f x ≠ v)) = S := by
        rw [List.filter_eq_self]
        intro x hx
        simp only [decide_eq_true_eq]
        intro he
        exact hhead x hx (hv.trans he.symm)
      rw [List.filter_cons_of_neg (by simp [hv]), hkeep]
      simp
    · rw [List.filter_cons_of_pos (by simp [hv])]
      have := length_le_filter_ne_add_one f v S htail
      simp only [List.length_cons]
      omega

theorem fallbackLoop_length_bound (userId srcMBID : String) (amount now : Int)
    (fresh : Nat → String) (f1 f2 : List String) :
    ∀ (items : List SimItem) (uids seen : List String),
      (uids.length : Int) +
        (fallbackLoop userId srcMBID amount now fresh f1 f2 items uids seen).length ≤
      max amount uids.length
  | [], uids, seen => by
    simp only [fallbackLoop, List.length_nil]
    omega
  | i :: rest, uids, seen => by
    simp only [fallbackLoop]
    split
    · rename_i hcond
      have := fallbackLoop_length_bound userId srcMBID amount now fresh f1 f2 rest
        (mkItemId userId i.name now :: uids) (i.name.toLower :: seen)
      simp only [List.length_cons] at this ⊢
      omega
    · exact fallbackLoop_length_bound userId srcMBID amount now fresh f1 f2 rest uids seen

theorem fallbackLoop_greedy_lower (userId srcMBID : String) (amount now : Int)
    (fresh : Nat → String) (f1 f2 : List String) :
    ∀ (items : List SimItem) (uids seen : List String) (S : List SimItem),
      List.Sublist S items →
      S.Pairwise (fun a b => slugify a.name ≠ slugify b.name) →
      (∀ s ∈ S, s.name.toLower ∉ f1 ∧ s.name.toLower ∉ f2 ∧
        mkItemId userId s.name now ∉ uids ∧ s.name.toLower ∉ seen) →
      min amount ((uids.length : Int) + S.length) ≤
        (uids.length : Int) +
          (fallbackLoop userId srcMBID amount now fresh f1 f2 items uids seen).length
  | items, uids, seen, [], _, _, _ => by
    simp only [List.length_nil]
    have hn : (0 : Int) ≤ (fallbackLoop userId srcMBID amount now fresh f1 f2
      items uids seen).length := by positivity
    omega
  | [], uids, seen, s :: T, hsub, _, _ => by
    exact absurd (List.eq_nil_of_sublist_nil hsub) (by simp)
  | i :: rest, uids, seen, s :: T, hsub, hpw, hinv => by
    simp only [fallbackLoop]
    split
    · rename_i hcond
      rcases List.cons_sublist_cons'.1 hsub with hcase | ⟨rfl, hTsub⟩
      · set S := s :: T with hS
        set U := S.filter (fun x => decide (slugify x.name ≠ slugify i.name)) with hU
        have hUsub : List.Sublist U rest := (List.filter_sublist S).trans hcase
        have hUpw : U.Pairwise (fun a b => slugify a.name ≠ slugify b.name) :=
          hpw.sublist (List.filter_sublist S)
        have hUinv : ∀ x ∈ U, x.name.toLower ∉ f1 ∧ x.name.toLower ∉ f2 ∧
            mkItemId userId x.name now ∉ (mkItemId userId i.name now :: uids) ∧
            x.name.toLower ∉ (i.name.toLower :: seen) := by
          intro x hx
          have hxS : x ∈ S := List.mem_of_mem_filter hx
          have hslug : slugify x.name ≠ slugify i.name := by
            have := List.of_mem_filter hx
            simpa using this
          obtain ⟨hf1, hf2, hid, hseen⟩ := hinv x hxS
          refine ⟨hf1, hf2, ?_, ?_⟩
          · intro hmem
            rcases List.mem_cons.1 hmem with he | he
            · exact hslug (mkItemId_inj_slug userId now _ _ he)
            · exact hid he
          · intro hmem
            rcases List.mem_cons.1 hmem with he | he
            · exact hslug (slugify_eq_of_toLower_eq _ _ he)
            · exact hseen he
        have hIH := fallbackLoop_greedy_lower userId srcMBID amount now fresh f1 f2 rest
          (mkItemId userId i.name now :: uids) (i.name.toLower :: seen) U hUsub hUpw hUinv
        have hlen : S.length ≤ U.length + 1 :=
          length_le_filter_ne_add_one (fun x => slugify x.name) (slugify i.name) S hpw
        simp only [List.length_cons] at hIH ⊢
        omega
      · obtain ⟨hhead, htail⟩ := List.pairwise_cons.1 hpw
        have hTinv : ∀ x ∈ T, x.name.toLower ∉ f1 ∧ x.name.toLower ∉ f2 ∧
            mkItemId userId x.name now ∉ (mkItemId userId s.name now :: uids) ∧
            x.name.toLower ∉ (s.name.toLower :: seen) := by
          intro x hx
          obtain ⟨hf1, hf2, hid, hseen⟩ := hinv x (List.mem_cons_of_mem _ hx)
          refine ⟨hf1, hf2, ?_, ?_⟩
          · intro hmem
            rcases List.mem_cons.1 hmem with he | he
            · exact hhead x hx (mkItemId_inj_slug userId now _ _ he).symm
            · exact hid he
          · intro hmem
            rcases List.mem_cons.1 hmem with he | he
            · exact hhead x hx (slugify_eq_of_toLower_eq _ _ he).symm
            · exact hseen he
        have hIH := fallbackLoop_greedy_lower userId srcMBID amount now fresh f1 f2 rest
          (mkItemId userId s.name now :: uids) (s.name.toLower :: seen) T hTsub htail hTinv
        simp only [List.length_cons] at hIH ⊢
        omega
    · rename_i hcond
      by_cases hlt : (uids.length : Int) < amount
      · rcases List.cons_sublist_cons'.1 hsub with hcase | ⟨rfl, hTsub⟩
        · exact fallbackLoop_greedy_lower userId srcMBID amount now fresh f1 f2 rest
            uids seen (s :: T) hcase hpw hinv
        · obtain ⟨hf1, hf2, hid, hseen⟩ := hinv s (List.mem_cons_self _ _)
          exact absurd ⟨hlt, hid, hseen, hf1, hf2⟩ hcond
      · have hb := fallbackLoop_length_bound userId srcMBID amount now fresh f1 f2
          rest uids seen
        omega

/-! ## Claim theorems (fallback greedy, C6) -/

/-- Counterexample for C6: the fallback pass only looks at the top `2 * amount`
entries of the sorted merged list. Here `amount = 1`, the top two entries are both
feedback-flagged "X", and the acceptable candidate "Y" sits third in the merged list:
the call returns zero records even though an acceptable candidate exists in the merged
list. -/
theorem generate_fallback_pool_truncation :
    (List.insertionSort scoreGE (mergeSimilar
      [⟨"a1", "X", 90, []⟩, ⟨"a2", "X", 80, []⟩, ⟨"a3", "Y", 70, []⟩] [] [])).map
      (fun i => i.name) = ["X", "X", "Y"] ∧
    (fallbackCandidatePool 1
      [⟨"a1", "X", 90, []⟩, ⟨"a2", "X", 80, []⟩, ⟨"a3", "Y", 70, []⟩] [] []).map
      (fun i => i.name) = ["X", "X"] ∧
    "y" ∉ existingFeedbackNamesOf "u" "s"
      [⟨"r1", "u", "s", "x2", "X", "", 1/2, some true, 0⟩] ∧
    "y" ∉ (feedbackHistoryOf "u" "s"
      [⟨"r1", "u", "s", "x2", "X", "", 1/2, some true, 0⟩]).map (fun f => f.item.toLower) ∧
    recsOf (generate "u" "s" 1 {}
      [⟨"a1", "X", 90, []⟩, ⟨"a2", "X", 80, []⟩, ⟨"a3", "Y", 70, []⟩] [] [] none 0
      (fun n => toString n) [⟨"r1", "u", "s", "x2", "X", "", 1/2, some true, 0⟩]) = [] := by
  with_unfolding_all decide

/-- C6 (amended): with no LLM configured, the fallback sorts the merged candidates
descending by score, truncates to the top `2 * amount`, and greedily accepts from that
truncated pool — skipping feedback-flagged names and names or synthesized ids already
chosen in this batch — until `amount` records are collected or the pool is exhausted.
Whenever the truncated pool contains at least `amount` candidates with pairwise-distinct
slugs and unflagged names, exactly `amount` records are returned. -/
theorem generate_fallback_greedy_fill (userId sourceItem : String) (amount : Int)
    (meta : MusicBrainzEntity) (artists : List SimilarArtist)
    (recordings : List SimilarRecording) (releaseGroups : List SimilarReleaseGroup)
    (now : Int) (fresh : Nat → String) (store : List RecommendationDoc)
    (S : List SimItem)
    (h1 : userId ≠ "") (h2 : sourceItem ≠ "") (h3 : 0 < amount)
    (hsub : List.Sublist S (fallbackCandidatePool amount artists recordings releaseGroups))
    (hpw : S.Pairwise (fun a b => slugify a.name ≠ slugify b.name))
    (hgood : ∀ s ∈ S,
      s.name.toLower ∉ (feedbackHistoryOf userId (resolveSourceMBID meta sourceItem)
        store).map (fun f => f.item.toLower) ∧
      s.name.toLower ∉
        existingFeedbackNamesOf userId (resolveSourceMBID meta sourceItem) store)
    (hlen : amount ≤ S.length) :
    ((recsOf (generate userId sourceItem amount meta artists recordings releaseGroups
      none now fresh store)).length : Int) = amount := by
  have hval : ¬(userId = "" ∨ sourceItem = "" ∨ amount ≤ 0) := by
    rintro (h | h | h) <;> [exact h1 h; exact h2 h; omega]
  rw [recsOf_generate_fallback userId sourceItem amount meta artists recordings
    releaseGroups now fresh store hval]
  have hlower := fallbackLoop_greedy_lower userId (resolveSourceMBID meta sourceItem)
    amount now fresh
    ((feedbackHistoryOf userId (resolveSourceMBID meta sourceItem) store).map
      (fun f => f.item.toLower))
    (existingFeedbackNamesOf userId (resolveSourceMBID meta sourceItem) store)
    (fallbackCandidatePool amount artists recordings releaseGroups) [] [] S hsub hpw
    (by
      intro s hs
      obtain ⟨hg1, hg2⟩ := hgood s hs
      exact ⟨hg1, hg2, by simp, by simp⟩)
  have hupper := fallbackLoop_length_bound userId (resolveSourceMBID meta sourceItem)
    amount now fresh
    ((feedbackHistoryOf userId (resolveSourceMBID meta sourceItem) store).map
      (fun f => f.item.toLower))
    (existingFeedbackNamesOf userId (resolveSourceMBID meta sourceItem) store)
    (fallbackCandidatePool amount artists recordings releaseGroups) [] []
  simp only [List.length_nil] at hlower hupper
  omega

/-- Witness for C6 (amended): a concrete fallback call with one unflagged candidate and
`amount = 1` returns exactly one record. -/
theorem generate_fallback_greedy_fill_witness :
    ((recsOf (generate "u" "s" 1 {} [⟨"m1", "A", 90, []⟩] [] [] none 0
      (fun n => toString n) [])).length : Int) = 1 := by
  refine generate_fallback_greedy_fill "u" "s" 1 {} [⟨"m1", "A", 90, []⟩] [] [] 0
    (fun n => toString n) [] [⟨"A", "artist", 90⟩] (by decide) (by decide) (by decide)
    ?_ (by simp) ?_ (by simp)
  · have hpool : fallbackCandidatePool 1 [⟨"m1", "A", 90, []⟩] [] [] =
        [⟨"A", "artist", 90⟩] := by
      with_unfolding_all decide
    rw [hpool]
  · intro s hs
    rw [List.mem_singleton] at hs
    subst hs
    constructor <;> with_unfolding_all decide

end ListenBuddy
